import Mathlib

set_option maxHeartbeats 1000000
set_option maxRecDepth 4000

namespace Pertuna

/-- First-match association-list lookup with a default value, embedding
Python `dict.get(k, d)` (association lists standing for Python dicts always
have distinct keys, as dict keys are unique). -/
def lookupD {α : Type} (d : List (String × α)) (k : String) (dflt : α) : α :=
  match d.find? (fun p => p.1 == k) with
  | some p => p.2
  | none => dflt

/-- Association-list lookup without a default, embedding Python `dict[k]` /
`dict.get(k)` success. -/
def dictGet? {α : Type} (d : List (String × α)) (k : String) : Option α :=
  (d.find? (fun p => p.1 == k)).map (fun p => p.2)

namespace Schema

/-- Embeds `Persona._sum_to_one` (src/personas/schema.py):
`s = sum(v.values()); {k: (val/s if s>0 else 0.0) for k,val in v.items()}`. -/
def sum_to_one (v : List (String × ℚ)) : List (String × ℚ) :=
  let s := (v.map Prod.snd).sum
  v.map (fun p => (p.1, if 0 < s then p.2 / s else 0))

end Schema

namespace Metrics

/-- Embeds `smape` (src/eval/metrics.py): the elementwise terms
`2*|pred-true| / clip(|true|+|pred|, min=1e-9)` averaged with `np.mean`;
the mean of an empty list is modelled as `0`. -/
def smape (y_true y_pred : List ℚ) : ℚ :=
  let terms := (y_true.zip y_pred).map
    (fun ab => 2 * |ab.2 - ab.1| / max (|ab.1| + |ab.2|) (1 / 1000000000))
  terms.sum / terms.length

end Metrics

namespace Audit

/-- One line of `outputs/audit/llm_calls.jsonl`, as written by
`record_llm_call` (src/utils/audit.py). -/
structure AuditRecord where
  ts : Nat
  product_id : String
  prompt_hash : String
  model : String
  submit : Bool
deriving DecidableEq

/-- The tally `seen[pid]` computed by `assert_single_call_per_product`:
the number of submit-marked ledger records for a product. -/
def submitCount (ledger : List AuditRecord) (pid : String) : Nat :=
  (ledger.filter (fun r => r.submit && r.product_id == pid)).length

/-- Distinct elements of a list, keeping the order of first occurrence —
the key order of the Python dict `seen` built by the ledger scan. -/
def firstSeenAux : List String → List String → List String
  | [], _ => []
  | x :: xs, seen => if x ∈ seen then firstSeenAux xs seen else x :: firstSeenAux xs (x :: seen)

def firstSeen (l : List String) : List String := firstSeenAux l []

/-- The violation list `[k for k,v in seen.items() if v > 1]` of
`assert_single_call_per_product`: product ids with more than one
submit-marked record, in first-seen order. -/
def violations (ledger : List AuditRecord) : List String :=
  (firstSeen ((ledger.filter (fun r => r.submit)).map (fun r => r.product_id))).filter
    (fun p => decide (1 < submitCount ledger p))

/-- Embeds `assert_single_call_per_product` (src/utils/audit.py). The ledger
file's existence is an explicit boolean input; the raised `RuntimeError`
is modelled as `Except.error` carrying the violation list. -/
def assert_single_call_per_product (submit : Bool) (ledgerExists : Bool)
    (ledger : List AuditRecord) : Except (List String) Unit :=
  if !submit || !ledgerExists then .ok ()
  else if violations ledger = [] then .ok ()
  else .error (violations ledger)

end Audit

namespace PurchaseModel

/-- Embeds `np.dot` on numeric vectors (equal-length lists at every call site). -/
noncomputable def dot (w z : List ℝ) : ℝ := (List.zipWith (fun a b => a * b) w z).sum

/-- Embeds `_logit` (src/simulation/purchase_model.py):
`np.log((p+1e-12)/(1-p+1e-12))`. -/
noncomputable def logit (p : ℝ) : ℝ :=
  Real.log ((p + 1 / 10 ^ 12) / (1 - p + 1 / 10 ^ 12))

/-- Embeds `_inv` (src/simulation/purchase_model.py): `1/(1+np.exp(-x))`. -/
noncomputable def inv_logit (x : ℝ) : ℝ := 1 / (1 + Real.exp (-x))

/-- The probability-term log-odds `x` computed by `persona_month_mu`
(purchase_model.py lines 11-13), including the advertising-model sum
`sum(delta_ad_map.get(m, 0.0) * on for m, on in ad_dict.items())`. -/
noncomputable def logOddsX (pi0 season promo price ref_price beta_season gamma eta : ℝ)
    (delta_ad_map ad_dict : List (String × ℝ)) (w_vec z_vec : List ℝ) : ℝ :=
  logit pi0 + beta_season * Real.log (season + 1 / 10 ^ 12) + gamma * promo
    - eta * (price / ref_price - 1) + dot w_vec z_vec
    + (ad_dict.map (fun p => lookupD delta_ad_map p.1 0 * p.2)).sum

/-- The log-frequency `ln_f` computed by `persona_month_mu`
(purchase_model.py lines 17-18). -/
noncomputable def lnF (fi0 season promo price ref_price theta_season lam phi : ℝ)
    (u_vec z_vec : List ℝ) : ℝ :=
  Real.log (max fi0 (1 / 10 ^ 6)) + theta_season * Real.log (season + 1 / 10 ^ 12)
    + lam * promo - phi * (price / ref_price - 1) + dot u_vec z_vec

/-- The channel/basket term `b` of `persona_month_mu` (purchase_model.py line 22):
`sum(channel_pref.get(c, 0.0) * basket_map.get(c, 1.0) for c in basket_map.keys())`. -/
noncomputable def basketTerm (channel_pref basket_map : List (String × ℝ)) : ℝ :=
  (basket_map.map (fun p => lookupD channel_pref p.1 0 * lookupD basket_map p.1 1)).sum

/-- Embeds `persona_month_mu` (src/simulation/purchase_model.py). -/
noncomputable def persona_month_mu (pi0 fi0 season promo : ℝ)
    (ad_dict : List (String × ℝ)) (price ref_price beta_season gamma : ℝ)
    (delta_ad_map : List (String × ℝ)) (eta theta_season lam phi : ℝ)
    (z_vec w_vec u_vec : List ℝ) (channel_pref basket_map : List (String × ℝ)) : ℝ :=
  inv_logit (logOddsX pi0 season promo price ref_price beta_season gamma eta
      delta_ad_map ad_dict w_vec z_vec)
    * Real.exp (lnF fi0 season promo price ref_price theta_season lam phi u_vec z_vec)
    * basketTerm channel_pref basket_map

/-- The probability-term log-odds exactly as the claim words it: log-odds of
pi0 with 1e-12 stabilization, plus `beta_season*ln(season)` (no stabilizer),
plus `gamma*promo`, minus `eta*((price/ref_price)-1)`, plus `dot(w_vec,z_vec)`,
plus `delta_ad_map[m]` for every active advertising model `m`. -/
noncomputable def spec_logOddsX (pi0 season promo price ref_price beta_season gamma eta : ℝ)
    (delta_ad_map ad_dict : List (String × ℝ)) (w_vec z_vec : List ℝ) : ℝ :=
  logit pi0 + beta_season * Real.log season + gamma * promo
    - eta * (price / ref_price - 1) + dot w_vec z_vec
    + (ad_dict.map (fun p => if p.2 = 1 then lookupD delta_ad_map p.1 0 else 0)).sum

/-- The log-frequency exactly as the claim words it:
`ln(max(f0, 1e-6)) + theta_season*ln(season) + lambda*promo
- phi*((price/ref_price)-1) + dot(u_vec, z_vec)` (no stabilizer on `ln(season)`). -/
noncomputable def spec_lnF (fi0 season promo price ref_price theta_season lam phi : ℝ)
    (u_vec z_vec : List ℝ) : ℝ :=
  Real.log (max fi0 (1 / 10 ^ 6)) + theta_season * Real.log season
    + lam * promo - phi * (price / ref_price - 1) + dot u_vec z_vec

/-- The basket term as the claim words it: the sum over channels of
`channel_pref[c] * basket_size[c]`, each basket entry contributing its own
size value. -/
noncomputable def spec_basketTerm (channel_pref basket_map : List (String × ℝ)) : ℝ :=
  (basket_map.map (fun p => lookupD channel_pref p.1 0 * p.2)).sum

/-- `mu = p * f * b` assembled from the claim-side formulas. -/
noncomputable def spec_mu (pi0 fi0 season promo : ℝ)
    (ad_dict : List (String × ℝ)) (price ref_price beta_season gamma : ℝ)
    (delta_ad_map : List (String × ℝ)) (eta theta_season lam phi : ℝ)
    (z_vec w_vec u_vec : List ℝ) (channel_pref basket_map : List (String × ℝ)) : ℝ :=
  inv_logit (spec_logOddsX pi0 season promo price ref_price beta_season gamma eta
      delta_ad_map ad_dict w_vec z_vec)
    * Real.exp (spec_lnF fi0 season promo price ref_price theta_season lam phi u_vec z_vec)
    * spec_basketTerm channel_pref basket_map

/-- The amended claim-side log-odds: as `spec_logOddsX` but with the code's
1e-12 stabilizer inside `ln(season + 1e-12)`. -/
noncomputable def spec_logOddsX_amended (pi0 season promo price ref_price beta_season gamma eta : ℝ)
    (delta_ad_map ad_dict : List (String × ℝ)) (w_vec z_vec : List ℝ) : ℝ :=
  logit pi0 + beta_season * Real.log (season + 1 / 10 ^ 12) + gamma * promo
    - eta * (price / ref_price - 1) + dot w_vec z_vec
    + (ad_dict.map (fun p => if p.2 = 1 then lookupD delta_ad_map p.1 0 else 0)).sum

/-- The amended claim-side log-frequency: as `spec_lnF` but with the code's
1e-12 stabilizer inside `ln(season + 1e-12)`. -/
noncomputable def spec_lnF_amended (fi0 season promo price ref_price theta_season lam phi : ℝ)
    (u_vec z_vec : List ℝ) : ℝ :=
  Real.log (max fi0 (1 / 10 ^ 6)) + theta_season * Real.log (season + 1 / 10 ^ 12)
    + lam * promo - phi * (price / ref_price - 1) + dot u_vec z_vec

/-- `mu = p * f * b` assembled from the amended claim-side formulas. -/
noncomputable def spec_mu_amended (pi0 fi0 season promo : ℝ)
    (ad_dict : List (String × ℝ)) (price ref_price beta_season gamma : ℝ)
    (delta_ad_map : List (String × ℝ)) (eta theta_season lam phi : ℝ)
    (z_vec w_vec u_vec : List ℝ) (channel_pref basket_map : List (String × ℝ)) : ℝ :=
  inv_logit (spec_logOddsX_amended pi0 season promo price ref_price beta_season gamma eta
      delta_ad_map ad_dict w_vec z_vec)
    * Real.exp (spec_lnF_amended fi0 season promo price ref_price theta_season lam phi u_vec z_vec)
    * spec_basketTerm channel_pref basket_map

/-- Embeds `sample_negbin` (purchase_model.py): `p = k/(k+mean+1e-12); r = k;
rng.negative_binomial(r, p)`. The numpy draw itself is an abstract
deterministic state-transition function `draw r p state`. -/
noncomputable def sample_negbin {S : Type} (draw : ℝ → ℝ → S → ℝ × S) (mean k : ℝ) (s : S) : ℝ × S :=
  draw k (k / (k + mean + 1 / 10 ^ 12)) s

end PurchaseModel

/-- The ambient global numpy RNG state (`np.random.*` with no explicit seed),
modelled as a stream of uniform draws in `[0,1)`. Python code that never
touches the global generator is independent of this state. -/
def GlobalRng : Type := List ℚ

namespace Runner

open PurchaseModel

/-- One month's calendar entry as consumed by `simulate_product`
(src/simulation/runner.py line 16): price, promo indicator, ad indicator
map and covariate vector. -/
structure CalEntry where
  price : ℝ
  promo : ℝ
  ad_on : List (String × ℝ)
  vector : List ℝ

/-- The persona fields read by `simulate_product` (runner.py lines 19-27). -/
structure PersonaR where
  price_sensitivity : ℝ
  channel_pref : List (String × ℝ)
  seasonality : List (String × ℝ)
  purchase_prob_12 : List ℝ
  expected_freq_12 : List ℝ

/-- The global coefficient record passed by the CLI (runner.py lines 23-25). -/
structure CoeffsR where
  beta_season : ℝ
  theta_season : ℝ
  gamma : ℝ
  lam : ℝ
  phi : ℝ
  w_vec : List ℝ
  u_vec : List ℝ
  delta_ad_map : List (String × ℝ)

/-- `ORDER` (runner.py lines 4-5). -/
def ORDER : List String :=
  ["2024-07", "2024-08", "2024-09", "2024-10", "2024-11", "2024-12",
   "2025-01", "2025-02", "2025-03", "2025-04", "2025-05", "2025-06"]

/-- `_idx(m) = ORDER.index(m)` (runner.py line 6). -/
def idxOfMonth (m : String) : Nat := ORDER.indexOf m

/-- Python `m[-2:]` on a month key. -/
def lastTwo (s : String) : String := ⟨s.data.drop (s.data.length - 2)⟩

/-- The default `basket_size_by_channel` used when the policy lacks one
(runner.py line 11). -/
noncomputable def defaultBasket : List (String × ℝ) :=
  [("대형마트", 1.1), ("편의점", 1.0), ("온라인", 1.3)]

/-- The weighted population-scaled month mean
`mu = N * sum(w_i * persona_month_mu(...))` (runner.py lines 17-29). -/
noncomputable def muMonth (bag : List PersonaR) (weights : List ℝ) (coeffs : CoeffsR)
    (ref_price : ℝ) (basket : List (String × ℝ)) (cal : String → CalEntry)
    (N : ℝ) (m : String) : ℝ :=
  let e := cal m
  N * ((weights.zip bag).map (fun wp =>
    wp.1 * persona_month_mu (wp.2.purchase_prob_12.getD (idxOfMonth m) 0)
      (wp.2.expected_freq_12.getD (idxOfMonth m) 0)
      (lookupD wp.2.seasonality (lastTwo m) 0) e.promo e.ad_on e.price ref_price
      coeffs.beta_season coeffs.gamma coeffs.delta_ad_map wp.2.price_sensitivity
      coeffs.theta_season coeffs.lam coeffs.phi e.vector coeffs.w_vec coeffs.u_vec
      wp.2.channel_pref basket)).sum

/-- One Monte Carlo trial path (runner.py lines 14-32): for each month,
either a negative-binomial draw threaded through the per-run RNG state, or
the deterministic mean when `stochastic` is false. -/
noncomputable def trialPath {S : Type} (draw : ℝ → ℝ → S → ℝ × S)
    (bag : List PersonaR) (weights : List ℝ) (coeffs : CoeffsR) (ref_price : ℝ)
    (basket : List (String × ℝ)) (cal : String → CalEntry) (N k : ℝ)
    (months : List String) (stochastic : Bool) (s0 : S) : List ℝ × S :=
  months.foldl (fun acc m =>
    let mu := muMonth bag weights coeffs ref_price basket cal N m
    if stochastic then
      let ys := sample_negbin draw mu k acc.2
      (acc.1 ++ [ys.1], ys.2)
    else (acc.1 ++ [mu], acc.2)) ([], s0)

/-- The `N_trials` trial paths, sharing the single per-run RNG state. -/
noncomputable def runTrials {S : Type} (draw : ℝ → ℝ → S → ℝ × S)
    (bag : List PersonaR) (weights : List ℝ) (coeffs : CoeffsR) (ref_price : ℝ)
    (basket : List (String × ℝ)) (cal : String → CalEntry) (N k : ℝ)
    (months : List String) (stochastic : Bool) :
    Nat → S → List (List ℝ) × S
  | 0, s => ([], s)
  | n + 1, s =>
    let p := trialPath draw bag weights coeffs ref_price basket cal N k months stochastic s
    let rest := runTrials draw bag weights coeffs ref_price basket cal N k months stochastic n p.2
    (p.1 :: rest.1, rest.2)

/-- The per-month columns of the trial matrix (`np.array(paths)` read along
axis 0). -/
noncomputable def columns (paths : List (List ℝ)) (nMonths : Nat) : List (List ℝ) :=
  (List.range nMonths).map (fun j => paths.map (fun p => p.getD j 0))

/-- `np.mean` of a sequence. -/
noncomputable def meanL (l : List ℝ) : ℝ := l.sum / l.length

/-- Ascending sort of a numeric sequence. -/
noncomputable def sortR (l : List ℝ) : List ℝ := l.mergeSort (fun a b => decide (a ≤ b))

/-- `np.percentile(l, q)` with numpy's default linear interpolation
(`np.median` coincides with the 50th percentile). -/
noncomputable def percentileL (q : ℝ) (l : List ℝ) : ℝ :=
  let s := sortR l
  let h := ((s.length : ℝ) - 1) * q / 100
  let i := ⌊h⌋₊
  let lo := s.getD i 0
  let hi := s.getD (i + 1) lo
  lo + (h - (i : ℝ)) * (hi - lo)

/-- The forecast summary returned by `simulate_product` (runner.py lines 34-38). -/
structure ForecastOutput where
  months : List String
  mean : List ℝ
  median : List ℝ
  p05 : List ℝ
  p95 : List ℝ

/-- Embeds `simulate_product` (src/simulation/runner.py). The per-run RNG is
created from the explicit `seed` by the abstract deterministic generator
constructor `init` (modelling `np.random.default_rng(seed)`), and every
negative-binomial draw threads that single state. The ambient global numpy
RNG state is threaded as `ambient` and — like the Python function, which
never touches `np.random` — returned unchanged and unread. -/
noncomputable def simulate_product {S : Type} (draw : ℝ → ℝ → S → ℝ × S)
    (init : Nat → S) (bag : List PersonaR) (ref_price : ℝ)
    (basket_size_by_channel : Option (List (String × ℝ)))
    (cal : String → CalEntry) (coeffs : CoeffsR) (weights : List ℝ)
    (N k : ℝ) (months : List String) (nTrials : Nat) (stochastic : Bool)
    (seed : Nat) (ambient : GlobalRng) : ForecastOutput × GlobalRng :=
  let rng := init seed
  let basket := basket_size_by_channel.getD defaultBasket
  let paths := (runTrials draw bag weights coeffs ref_price basket cal N k
    months stochastic nTrials rng).1
  let cols := columns paths months.length
  ({ months := months
     mean := cols.map meanL
     median := cols.map (percentileL 50)
     p05 := cols.map (percentileL 5)
     p95 := cols.map (percentileL 95) }, ambient)

end Runner

namespace SimV4

/-- A persona attribute value as consumed by `safe_float` (simulator.py):
`fl q` stands for any value Python's `float()` coerces (numbers and numeric
strings, `q` being the coercion result); `nonNum` stands for values raising
`ValueError`/`TypeError` (including `None`). -/
inductive AttrVal where
  | fl (q : ℚ)
  | nonNum
deriving DecidableEq

/-- A loaded persona as read by `simulate_monthly_demand_probabilistic`:
its `attributes` list of `name`/`value` pairs. -/
structure PersonaV4 where
  attributes : List (String × AttrVal)
deriving DecidableEq

/-- Embeds `safe_float(persona_attrs.get(name))` (simulator.py lines 97-101,
109): a missing (`None`) or non-coercible value yields the default `0.0`. -/
def safeFloat : Option AttrVal → ℚ
  | some (.fl q) => q
  | _ => 0

/-- `persona_attrs[name]` where `persona_attrs` is the dict comprehension of
simulator.py line 107 — a duplicated attribute name keeps its last binding,
as in Python. -/
def attrLookup (p : PersonaV4) (name : String) : Option AttrVal :=
  p.attributes.foldl (fun acc kv => if kv.1 = name then some kv.2 else acc) none

/-- Membership of `name` in `all_attr_names` (simulator.py line 104): some
loaded persona carries the attribute. -/
def hasAttr (personas : List PersonaV4) (name : String) : Bool :=
  personas.any (fun p => p.attributes.any (fun kv => kv.1 == name))

/-- The per-persona numeric column `attributes_dict.get(name, default)`
(simulator.py lines 104-118 composed with `.get`): when some persona carries
the attribute the column holds `safe_float` of each persona's value, and the
default column is used only when no persona carries the attribute at all. -/
def attrColumn (personas : List PersonaV4) (name : String) (dflt : List ℚ) : List ℚ :=
  if hasAttr personas name then personas.map (fun p => safeFloat (attrLookup p name))
  else dflt

/-- `attributes_dict.get('제품 적합도', np.full(n, 5.0))` (line 118). -/
def baseFitColumn (ps : List PersonaV4) : List ℚ :=
  attrColumn ps "제품 적합도" (List.replicate ps.length 5)

/-- `attributes_dict.get('가격 민감도', np.full(n, 5.0))` (line 121). -/
def priceSensColumn (ps : List PersonaV4) : List ℚ :=
  attrColumn ps "가격 민감도" (List.replicate ps.length 5)

/-- `attributes_dict.get('마케팅 영향력', np.full(n, 5.0))` (line 124). -/
def marketingInflColumn (ps : List PersonaV4) : List ℚ :=
  attrColumn ps "마케팅 영향력" (List.replicate ps.length 5)

/-- `attributes_dict.get('계절성 구매 성향', np.full(n, 5.0))` (line 131). -/
def seasonalPrefColumn (ps : List PersonaV4) : List ℚ :=
  attrColumn ps "계절성 구매 성향" (List.replicate ps.length 5)

/-- `attributes_dict.get('평균 구매 수량', np.ones(n))` (line 147). -/
def avgQtyColumn (ps : List PersonaV4) : List ℚ :=
  attrColumn ps "평균 구매 수량" (List.replicate ps.length 1)

/-- The `coeffs` mapping of simulator.py, whose entries are read with
`.get('gamma', 1.0)`, `.get('beta_season', 1.0)`, `.get('delta_ad_map', {})`. -/
structure CoeffsV4 where
  gammaEntry : Option ℚ
  betaSeasonEntry : Option ℚ
  deltaAdMapEntry : Option (List (String × ℚ))
deriving DecidableEq

def CoeffsV4.gamma (c : CoeffsV4) : ℚ := c.gammaEntry.getD 1

def CoeffsV4.beta_season (c : CoeffsV4) : ℚ := c.betaSeasonEntry.getD 1

def CoeffsV4.delta_ad_map (c : CoeffsV4) : List (String × ℚ) := c.deltaAdMapEntry.getD []

/-- Python's substring test `pat in hay`. -/
def containsSub (hay pat : List Char) : Bool :=
  match hay with
  | [] => pat.isEmpty
  | _ :: t => pat.isPrefixOf hay || containsSub t pat

/-- The `ad_effect` accumulation (simulator.py lines 125-128): each
advertising model whose literal tag `"광고모델: {model}"` occurs in the
product feature string contributes its boost. -/
def adEffect (delta_ad_map : List (String × ℚ)) (feature : List Char) : ℚ :=
  (delta_ad_map.map (fun p =>
    if containsSub feature (("광고모델: " ++ p.1).toList) then p.2 else 0)).sum

/-- The external-data values consumed for one month index
(`food_cpi_impact`, `marketing_boost_index`, `seasonal_index`). -/
structure ExternalMonth where
  food_cpi_impact : ℚ
  marketing_boost_index : ℚ
  seasonal_index : ℚ
deriving DecidableEq

/-- `np.clip(x, 0, 1)`. -/
def clip01 (q : ℚ) : ℚ := min (max q 0) 1

/-- One Bernoulli draw of `np.random.binomial(1, p)` from the ambient global
numpy RNG, modelled as consuming one uniform from the stream. -/
def bernoulliDraw (p : ℚ) (g : GlobalRng) : ℚ × GlobalRng :=
  (if (List.headD g 0) < p then 1 else 0, List.tail g)

/-- Embeds `simulate_monthly_demand_probabilistic` (simulator.py lines
91-150) for one month: extract attribute columns, combine the base fit with
the price/marketing/seasonal modifiers, clip to a probability, draw one
Bernoulli purchase indicator per persona from the ambient global RNG, and
multiply by the per-persona average purchase quantity. -/
def simulate_monthly_demand_probabilistic (personas : List PersonaV4)
    (product_feature : List Char) (ext : ExternalMonth) (coeffs : CoeffsV4)
    (g : GlobalRng) : List ℚ × GlobalRng :=
  let base_prob := (baseFitColumn personas).map (fun v => v / 10)
  let price_sens := (priceSensColumn personas).map (fun v => v / 10)
  let price_mod := price_sens.map (fun s => (ext.food_cpi_impact - 1) * s * coeffs.gamma)
  let minfl := (marketingInflColumn personas).map (fun v => v / 10)
  let ad := adEffect coeffs.delta_ad_map product_feature
  let marketing_mod := minfl.map (fun s => (ext.marketing_boost_index - 1 + ad) * s)
  let spref := (seasonalPrefColumn personas).map (fun v => v / 10)
  let seasonal_mod := spref.map (fun s => (ext.seasonal_index - 1) * s * coeffs.beta_season)
  let final_prob := (((base_prob.zip price_mod).zip marketing_mod).zip seasonal_mod).map
    (fun x => clip01 (x.1.1.1 * (1 + x.1.1.2 + x.1.2 + x.2)))
  let draws := final_prob.foldl (fun (acc : List ℚ × GlobalRng) p =>
    let bu := bernoulliDraw p acc.2
    (acc.1 ++ [bu.1], bu.2)) ([], g)
  let qty := avgQtyColumn personas
  ((draws.1.zip qty).map (fun x => x.1 * x.2), draws.2)

/-- `tam_by_category` (simulator.py lines 166-173); values in millions
(20.8 = 104/5, 0.55 = 11/20, 10.4 = 52/5, 3.4 = 17/5). -/
def tam_by_category : List (String × ℚ) :=
  [("커피", 104 / 5), ("발효유", 11 / 20), ("참치캔", 52 / 5),
   ("조미료", 17 / 5), ("축산캔", 52 / 5), ("default", 5)]

/-- `tam_by_category.get(cat2, tam_by_category.get(cat1, tam_by_category['default']))`
(simulator.py line 189). -/
def productTam (cat2 cat1 : String) : ℚ :=
  (dictGet? tam_by_category cat2).getD
    ((dictGet? tam_by_category cat1).getD (lookupD tam_by_category "default" 0))

/-- The TAM lookup as the claim words it: first by category level-2, then by
category level-1, in the five-entry fixed table, then a default of 5.0. -/
def spec_tamTable : List (String × ℚ) :=
  [("커피", 104 / 5), ("발효유", 11 / 20), ("참치캔", 52 / 5),
   ("조미료", 17 / 5), ("축산캔", 52 / 5)]

def spec_productTam (cat2 cat1 : String) : ℚ :=
  (dictGet? spec_tamTable cat2).getD ((dictGet? spec_tamTable cat1).getD 5)

/-- `market_segment_size = (product_tam * 1_000_000) / num_valid_personas`
(simulator.py line 204). -/
def market_segment_size (tam : ℚ) (numPersonas : Nat) : ℚ :=
  tam * 1000000 / numPersonas

/-- Python 3 `round`: banker's rounding (half to even). -/
def pyRound (q : ℚ) : ℤ :=
  let f := ⌊q⌋
  let r := q - f
  if r < 1 / 2 then f
  else if 1 / 2 < r then f + 1
  else if f % 2 = 0 then f else f + 1

/-- `round(total_purchases_in_sample * market_segment_size)`
(simulator.py lines 200-209) for one month. -/
def total_monthly_sales (totalPurchases : ℚ) (tam : ℚ) (numPersonas : Nat) : ℤ :=
  pyRound (totalPurchases * market_segment_size tam numPersonas)

/-- `(month - 7 + 12) % 12` (simulator.py line 74); over naturals
`m - 7 + 12 ≡ m + 5 (mod 12)` for every calendar month `m ≥ 0`. -/
def simMonthIdx (m : Nat) : Nat := (m + 5) % 12

/-- ASCII decimal digit test (the `\d` of the ad-window regex on its inputs). -/
def isDigitCh (c : Char) : Bool := c.isDigit

/-- Python `int` of a nonempty decimal digit string. -/
def digitsToNat (l : List Char) : Nat := l.foldl (fun n c => 10 * n + (c.toNat - 48)) 0

/-- One attempted match of the regex `(\d+)-(\d+)월` at the head of the
input: a maximal nonempty digit run, `'-'`, a maximal nonempty digit run,
`'월'` (for this pattern, greedy matching with backtracking succeeds exactly
on the maximal runs, since a shorter run would be followed by a digit).
Returns the two captured numbers and the remainder after the match. -/
def matchWindow (l : List Char) : Option (Nat × Nat × List Char) :=
  if l.takeWhile isDigitCh = [] then none
  else
    match l.drop (l.takeWhile isDigitCh).length with
    | '-' :: r2 =>
      if r2.takeWhile isDigitCh = [] then none
      else
        match r2.drop (r2.takeWhile isDigitCh).length with
        | '월' :: rest =>
          some (digitsToNat (l.takeWhile isDigitCh), digitsToNat (r2.takeWhile isDigitCh), rest)
        | _ => none
    | _ => none

/-- The scanning loop of `re.findall(r'(\d+)-(\d+)월', features)`, with an
explicit fuel argument for structural recursion; a successful match consumes
at least four characters and a failed position one, so fuel equal to the
input length never runs out. -/
def findWindowsAux : Nat → List Char → List (Nat × Nat)
  | 0, _ => []
  | _ + 1, [] => []
  | fuel + 1, c :: cs =>
    match matchWindow (c :: cs) with
    | some (a, b, rest) => (a, b) :: findWindowsAux fuel rest
    | none => findWindowsAux fuel cs

/-- `re.findall(r'(\d+)-(\d+)월', features)`: all leftmost non-overlapping
matches, scanning left to right. -/
def findWindows (l : List Char) : List (Nat × Nat) := findWindowsAux l.length l

/-- The nested boost-application loops (simulator.py lines 70-75): for each
parsed window, set index `(month-7+12) % 12` to 1.2 for every calendar month
in `start..end` inclusive. -/
def boostFold (arr : List ℚ) (ws : List (Nat × Nat)) : List ℚ :=
  ws.foldl (fun a w =>
    (List.range' w.1 (w.2 + 1 - w.1)).foldl (fun b m => b.set (simMonthIdx m) (6 / 5)) a) arr

/-- `marketing_boost_index` as assembled by `load_external_data`
(simulator.py lines 64-75): ones, then 1.2 at every boosted index. -/
def marketing_boost_index (features : List Char) : List ℚ :=
  boostFold (List.replicate 12 1) (findWindows features)

/-- Forecast-month index `i` is covered by one of the parsed ad windows. -/
def covers (ws : List (Nat × Nat)) (i : Nat) : Prop :=
  ∃ w ∈ ws, ∃ m ∈ List.range' w.1 (w.2 + 1 - w.1), simMonthIdx m = i

instance (ws : List (Nat × Nat)) (i : Nat) : Decidable (covers ws i) := by
  unfold covers; infer_instance

end SimV4

namespace LLM

/-- The decimal digit characters rendered by Python `f"{K}"` for a
nonnegative integer `K` (persona counts are nonnegative). -/
def digitCh (n : Nat) : Char :=
  match n with
  | 0 => '0'
  | 1 => '1'
  | 2 => '2'
  | 3 => '3'
  | 4 => '4'
  | 5 => '5'
  | 6 => '6'
  | 7 => '7'
  | 8 => '8'
  | _ => '9'

/-- Decimal rendering of a natural number, most significant digit first;
the fuel argument (at least the digit count, `natChars` passes `n` itself)
makes the recursion structural. -/
def natCharsAux : Nat → Nat → List Char
  | 0, n => [digitCh n]
  | fuel + 1, n =>
    if n < 10 then [digitCh n]
    else natCharsAux fuel (n / 10) ++ [digitCh (n % 10)]

def natChars (n : Nat) : List Char := natCharsAux n n

/-- One attempted match of `re.search(r"EXACTLY (\d+)", prompt)` at the head
of the input: the literal `"EXACTLY "` followed by a maximal nonempty digit
run (the group). -/
def tryExactly (l : List Char) : Option Nat :=
  if l.take 8 = "EXACTLY ".toList then
    if (l.drop 8).takeWhile SimV4.isDigitCh = [] then none
    else some (SimV4.digitsToNat ((l.drop 8).takeWhile SimV4.isDigitCh))
  else none

/-- `re.search(r"EXACTLY (\d+)", prompt)`: leftmost match, scanning left to
right; `int(m.group(1))` on success. -/
def scanExactly : List Char → Option Nat
  | [] => none
  | c :: cs =>
    match tryExactly (c :: cs) with
    | some k => some k
    | none => scanExactly cs

/-- One attempted match of `re.search(r"- id: ([^\n]+)", prompt)` at the head
of the input: the literal `"- id: "` followed by a maximal nonempty run of
non-newline characters (the group). -/
def tryId (l : List Char) : Option (List Char) :=
  if l.take 6 = "- id: ".toList then
    if (l.drop 6).takeWhile (fun c => c != '\n') = [] then none
    else some ((l.drop 6).takeWhile (fun c => c != '\n'))
  else none

/-- `re.search(r"- id: ([^\n]+)", prompt)`: leftmost match, scanning left to
right; the captured group on success. -/
def scanId : List Char → Option (List Char)
  | [] => none
  | c :: cs =>
    match tryId (c :: cs) with
    | some g => some g
    | none => scanId cs

/-- Python `str.strip()`. -/
def pyStrip (l : List Char) : List Char :=
  ((l.dropWhile Char.isWhitespace).reverse.dropWhile Char.isWhitespace).reverse

/-- Exceptions `LLMClient.complete_once` can raise: the `AttributeError` from
calling `.group` on a failed `re.search` in `_mock`, and the
`NotImplementedError` of the non-mock path. -/
inductive LLMError where
  | attributeError
  | notImplemented
deriving DecidableEq

/-- Embeds `LLMClient.complete_once` (src/utils/llm_client.py). `llm_mock` is
the value of the environment variable `LLM_MOCK` (`none` when unset, read
with default `"1"`). In mock mode the call returns normally exactly when
both regex searches of `_mock` succeed; the returned completion is the
deterministic mock persona-bag JSON, represented here by the parsed
`(K, product_id)` pair that fully determines it (the bag synthesis itself
uses a fresh RNG seeded with the constant 123 and no other input). -/
def complete_once (llm_mock : Option String) (prompt : List Char) :
    Except LLMError (Nat × List Char) :=
  if llm_mock.getD "1" = "1" then
    match scanExactly prompt, scanId prompt with
    | some k, some pid => .ok (k, pyStrip pid)
    | _, _ => .error .attributeError
  else .error .notImplemented

/-- The product metadata fields interpolated by `build_product_prompt`
(src/personas/prompt_builder.py), each already rendered to text as Python
f-string interpolation would. -/
structure ProductMeta where
  id : List Char
  name : List Char
  category : List Char
  price_band_krw : List Char
  channels : List Char
  ad_models : List Char

/-- The single-quote character, as used by Python `str(list)`. -/
def sq : Char := Char.ofNat 39

/-- The canonical 12-month list of `build_product_prompt`. -/
def monthsList : List String :=
  ["2024-07", "2024-08", "2024-09", "2024-10", "2024-11", "2024-12",
   "2025-01", "2025-02", "2025-03", "2025-04", "2025-05", "2025-06"]

/-- Python `str` of a list of strings: `['a', 'b', ...]`. -/
def pyListRepr (l : List String) : List Char :=
  '[' :: (String.intercalate ", "
    (l.map (fun s => String.singleton sq ++ s ++ String.singleton sq))).toList ++ [']']

/-- Embeds `build_product_prompt` (src/personas/prompt_builder.py): the fixed
f-string template, with the final `.strip()` applied (the template's leading
and trailing newlines removed). Literal braces of the template are written
as `\x7b`/`\x7d`. -/
def build_product_prompt (meta : ProductMeta) (K : Nat) : List Char :=
  "[System] You are a market-research generator. Output STRICT JSON only.\n[User]\nGenerate EXACTLY ".toList
  ++ natChars K
  ++ " consumer personas for ONE product in a SINGLE response.\nProduct:\n- id: ".toList
  ++ meta.id
  ++ "\n- name: ".toList ++ meta.name ++ ", category: ".toList ++ meta.category
  ++ "\n- price_band_krw: ".toList ++ meta.price_band_krw
  ++ "\n- channels: ".toList ++ meta.channels
  ++ "\n- ad_models: ".toList ++ meta.ad_models
  ++ "\n- months: ".toList ++ pyListRepr monthsList
  ++ "\nConstraints:\n- Return JSON: \x7b\"product_id\":\"".toList ++ meta.id
  ++ "\",\"personas\":[...],\n                 \"meta\":\x7b\"model\":\"$MODEL\",\"ts\":\"$TS\"\x7d\x7d\n- personas: exactly ".toList
  ++ natChars K
  ++ " objs; each has ≥10 attributes(name/value/weight[0..1]),\n  price_sensitivity(0..3), promo_uplift(0..3), ad_uplift(map), channel_pref(sum=1),\n  seasonality(\"01\"..\"12\":0.5..1.5), purchase_prob_12(12×0..1), expected_freq_12(12×≥0)\nFormatting:\n- STRICT JSON, floats ≤3 decimals, no extra text.".toList

/-- Decidable equality on `complete_once` results, for concrete evaluation. -/
instance : DecidableEq (Except LLMError (Nat × List Char)) := fun a b =>
  match a, b with
  | .ok x, .ok y =>
    if h : x = y then isTrue (by rw [h]) else isFalse (by simp [h])
  | .error x, .error y =>
    if h : x = y then isTrue (by rw [h]) else isFalse (by simp [h])
  | .ok _, .error _ => isFalse (by simp)
  | .error _, .ok _ => isFalse (by simp)

end LLM

/-! ## Theorems -/

section SchemaTheorems

lemma sum_map_div (v : List (String × ℚ)) (s : ℚ) :
    (v.map (fun p => p.2 / s)).sum = (v.map Prod.snd).sum / s := by
  induction v with
  | nil => simp
  | cons a t ih => simp [ih, add_div]

/-- Claim C2: a Persona's channel_pref weights are normalized at
construction — when the raw sum `S` is positive the stored weights sum to 1
(each raw value divided by `S`), and when `S ≤ 0` (in particular `S = 0`)
every stored weight is 0. -/
theorem claim_C2 (v : List (String × ℚ)) :
    (0 < (v.map Prod.snd).sum → ((Schema.sum_to_one v).map Prod.snd).sum = 1)
    ∧ ((v.map Prod.snd).sum ≤ 0 → ∀ p ∈ Schema.sum_to_one v, p.2 = 0) := by
  constructor
  · intro hs
    simp only [Schema.sum_to_one, List.map_map]
    have hcomp : (Prod.snd ∘ fun p : String × ℚ =>
        (p.1, if 0 < (v.map Prod.snd).sum then p.2 / (v.map Prod.snd).sum else 0))
        = fun p : String × ℚ => p.2 / (v.map Prod.snd).sum := by
      funext p; simp [hs]
    rw [hcomp, sum_map_div]
    exact div_self (ne_of_gt hs)
  · intro hs p hp
    simp only [Schema.sum_to_one, List.mem_map] at hp
    obtain ⟨q, _, rfl⟩ := hp
    simp [not_lt.mpr hs]

/-- Witness for C2 at the concrete mapping {a ↦ 1, b ↦ 3}. -/
theorem claim_C2_witness :
    ((Schema.sum_to_one [("a", 1), ("b", 3)]).map Prod.snd).sum = 1 :=
  (claim_C2 [("a", 1), ("b", 3)]).1 (by norm_num)

end SchemaTheorems

section MetricsTheorems

lemma zip_map_eq_zipWith (f : ℚ × ℚ → ℚ) : ∀ t p : List ℚ,
    (t.zip p).map f = List.zipWith (fun a b => f (a, b)) t p := by
  intro t
  induction t with
  | nil => intro p; simp
  | cons a t ih => intro p; cases p <;> simp [ih]

lemma smape_term_nonneg (a b : ℚ) :
    0 ≤ 2 * |b - a| / max (|a| + |b|) (1 / 1000000000) := by
  have hden : (0 : ℚ) < max (|a| + |b|) (1 / 1000000000) :=
    lt_of_lt_of_le (by norm_num) (le_max_right _ _)
  exact div_nonneg (by positivity) hden.le

lemma smape_term_le_two (a b : ℚ) :
    2 * |b - a| / max (|a| + |b|) (1 / 1000000000) ≤ 2 := by
  have hden : (0 : ℚ) < max (|a| + |b|) (1 / 1000000000) :=
    lt_of_lt_of_le (by norm_num) (le_max_right _ _)
  rw [div_le_iff hden]
  have h1 : |b - a| ≤ |a| + |b| := by
    have h := abs_add b (-a)
    simpa [sub_eq_add_neg, abs_neg, add_comm] using h
  have h2 : |a| + |b| ≤ max (|a| + |b|) (1 / 1000000000) := le_max_left _ _
  linarith

lemma smape_diag_zero (y : List ℚ) : Metrics.smape y y = 0 := by
  have hsum : ((y.zip y).map
      (fun ab => 2 * |ab.2 - ab.1| / max (|ab.1| + |ab.2|) (1 / 1000000000))).sum = 0 := by
    induction y with
    | nil => simp
    | cons a t ih =>
      simp only [List.zip_cons_cons, List.map_cons, List.sum_cons, sub_self, abs_zero,
        mul_zero, zero_div, zero_add]
      exact ih
  simp only [Metrics.smape]
  rw [hsum]
  exact zero_div _

lemma smape_comm (t p : List ℚ) : Metrics.smape t p = Metrics.smape p t := by
  have hsum : ∀ t p : List ℚ,
      ((t.zip p).map
        (fun ab => 2 * |ab.2 - ab.1| / max (|ab.1| + |ab.2|) (1 / 1000000000))).sum
      = ((p.zip t).map
        (fun ab => 2 * |ab.2 - ab.1| / max (|ab.1| + |ab.2|) (1 / 1000000000))).sum := by
    intro t
    induction t with
    | nil => intro p; cases p <;> simp
    | cons a t ih =>
      intro p
      cases p with
      | nil => simp
      | cons b q =>
        simp only [List.zip_cons_cons, List.map_cons, List.sum_cons]
        rw [ih q, abs_sub_comm b a, add_comm |a| |b|]
  have hlen : ∀ t p : List ℚ, (t.zip p).length = (p.zip t).length := by
    intro t p; simp [List.length_zip, Nat.min_comm]
  simp only [Metrics.smape]
  rw [hsum, List.length_map, List.length_map, hlen]

lemma smape_nonneg (t p : List ℚ) : 0 ≤ Metrics.smape t p := by
  simp only [Metrics.smape]
  apply div_nonneg
  · apply List.sum_nonneg
    intro x hx
    obtain ⟨ab, _, rfl⟩ := List.mem_map.mp hx
    exact smape_term_nonneg _ _
  · positivity

lemma smape_le_two (t p : List ℚ) : Metrics.smape t p ≤ 2 := by
  simp only [Metrics.smape]
  set terms := (t.zip p).map
    (fun ab => 2 * |ab.2 - ab.1| / max (|ab.1| + |ab.2|) (1 / 1000000000)) with hterms
  rcases Nat.eq_zero_or_pos terms.length with hn | hn
  · rw [List.length_eq_zero] at hn
    simp [hn]
  · have hlen : (0 : ℚ) < terms.length := by exact_mod_cast hn
    rw [div_le_iff hlen]
    have hb : terms.sum ≤ terms.length • (2 : ℚ) := by
      apply List.sum_le_card_nsmul
      intro x hx
      rw [hterms] at hx
      obtain ⟨ab, _, rfl⟩ := List.mem_map.mp hx
      exact smape_term_le_two _ _
    calc terms.sum ≤ terms.length • (2 : ℚ) := hb
      _ = 2 * terms.length := by rw [nsmul_eq_mul]; ring

/-- Claim C5: `smape` equals the mean over paired points of
`2|pred-true| / max(|true|+|pred|, 1e-9)`; on non-negative equal-length
sequences it is zero on the diagonal, symmetric, bounded in [0, 2], and
`smape [0] [0] = 0` thanks to the denominator floor. -/
theorem claim_C5 (y_true y_pred : List ℚ) (hlen : y_true.length = y_pred.length)
    (_ : ∀ x ∈ y_true, 0 ≤ x) (_ : ∀ x ∈ y_pred, 0 ≤ x) :
    Metrics.smape y_true y_pred
      = (List.zipWith (fun a b => 2 * |b - a| / max (|a| + |b|) (1 / 1000000000))
          y_true y_pred).sum / y_true.length
    ∧ Metrics.smape y_true y_true = 0
    ∧ Metrics.smape y_true y_pred = Metrics.smape y_pred y_true
    ∧ 0 ≤ Metrics.smape y_true y_pred
    ∧ Metrics.smape y_true y_pred ≤ 2
    ∧ Metrics.smape [0] [0] = 0 := by
  refine ⟨?_, smape_diag_zero _, smape_comm _ _, smape_nonneg _ _, smape_le_two _ _, ?_⟩
  · simp only [Metrics.smape]
    rw [zip_map_eq_zipWith]
    congr 1
    simp [List.length_zip, hlen]
  · simpa using smape_diag_zero [0]

/-- Witness for C5 at `y_true = [0], y_pred = [0]`. -/
theorem claim_C5_witness : Metrics.smape [0] [0] = 0 :=
  (claim_C5 [0] [0] rfl (by norm_num) (by norm_num)).2.1

end MetricsTheorems

section AuditTheorems

lemma mem_firstSeenAux (p : String) : ∀ l seen : List String,
    p ∈ Audit.firstSeenAux l seen ↔ p ∈ l ∧ p ∉ seen := by
  intro l
  induction l with
  | nil => intro seen; simp [Audit.firstSeenAux]
  | cons x xs ih =>
    intro seen
    simp only [Audit.firstSeenAux]
    by_cases hx : x ∈ seen
    · rw [if_pos hx, ih]
      constructor
      · rintro ⟨hl, hs⟩; exact ⟨List.mem_cons_of_mem _ hl, hs⟩
      · rintro ⟨hl, hs⟩
        rcases List.mem_cons.mp hl with rfl | hl
        · exact absurd hx hs
        · exact ⟨hl, hs⟩
    · rw [if_neg hx]
      constructor
      · intro hm
        rcases List.mem_cons.mp hm with rfl | hm
        · exact ⟨List.mem_cons_self _ _, hx⟩
        · have h := (ih _).mp hm
          refine ⟨List.mem_cons_of_mem _ h.1, ?_⟩
          intro hs
          exact h.2 (List.mem_cons_of_mem _ hs)
      · rintro ⟨hl, hs⟩
        rcases List.mem_cons.mp hl with rfl | hl
        · exact List.mem_cons_self _ _
        · by_cases hpx : p = x
          · subst hpx; exact List.mem_cons_self _ _
          · exact List.mem_cons_of_mem _
              ((ih _).mpr ⟨hl, by simp [List.mem_cons, hpx, hs]⟩)

lemma mem_firstSeen (p : String) (l : List String) :
    p ∈ Audit.firstSeen l ↔ p ∈ l := by
  unfold Audit.firstSeen
  rw [mem_firstSeenAux]
  simp

lemma mem_violations (ledger : List Audit.AuditRecord) (p : String) :
    p ∈ Audit.violations ledger ↔ 1 < Audit.submitCount ledger p := by
  unfold Audit.violations
  rw [List.mem_filter]
  constructor
  · rintro ⟨-, h⟩; simpa using h
  · intro h
    refine ⟨?_, by simpa using h⟩
    rw [mem_firstSeen]
    have hpos : 0 < Audit.submitCount ledger p := Nat.lt_of_lt_of_le Nat.zero_lt_one h.le
    unfold Audit.submitCount at hpos
    rw [List.length_pos] at hpos
    obtain ⟨r, hr⟩ := List.exists_mem_of_ne_nil _ hpos
    rw [List.mem_filter] at hr
    have hb : r.submit = true ∧ (r.product_id == p) = true := by simpa using hr.2
    rw [List.mem_map]
    refine ⟨r, ?_, beq_iff_eq.mp hb.2⟩
    rw [List.mem_filter]
    exact ⟨hr.1, hb.1⟩

/-- Claim C3: `assert_single_call_per_product` is a no-op when `submit` is
false or the ledger file does not exist; otherwise it tallies submit-marked
records per product and fails exactly when some product has more than one,
naming precisely those products. In particular, on a ledger with two
submit-marked records for product A and none for product B it fails naming
exactly A when called with `submit = true`, and does not fail with
`submit = false`. -/
theorem claim_C3 :
    (∀ ledgerExists ledger,
      Audit.assert_single_call_per_product false ledgerExists ledger = .ok ())
    ∧ (∀ submit ledger,
      Audit.assert_single_call_per_product submit false ledger = .ok ())
    ∧ (∀ ledger p, p ∈ Audit.violations ledger ↔ 1 < Audit.submitCount ledger p)
    ∧ (∀ ledger, Audit.violations ledger = [] →
        Audit.assert_single_call_per_product true true ledger = .ok ())
    ∧ (∀ ledger, Audit.violations ledger ≠ [] →
        Audit.assert_single_call_per_product true true ledger
          = .error (Audit.violations ledger))
    ∧ Audit.assert_single_call_per_product true true
        [⟨1, "A", "h1", "m", true⟩, ⟨2, "A", "h2", "m", true⟩, ⟨3, "B", "h3", "m", false⟩]
        = .error ["A"]
    ∧ Audit.assert_single_call_per_product false true
        [⟨1, "A", "h1", "m", true⟩, ⟨2, "A", "h2", "m", true⟩, ⟨3, "B", "h3", "m", false⟩]
        = .ok () := by
  refine ⟨?_, ?_, mem_violations, ?_, ?_, rfl, rfl⟩
  · intro ledgerExists ledger
    simp [Audit.assert_single_call_per_product]
  · intro submit ledger
    simp [Audit.assert_single_call_per_product]
  · intro ledger h
    simp [Audit.assert_single_call_per_product, h]
  · intro ledger h
    simp [Audit.assert_single_call_per_product, h]

/-- Witness for C3 on a two-record ledger with a duplicated submit-marked
product. -/
theorem claim_C3_witness :
    Audit.assert_single_call_per_product true true
      [⟨1, "A", "h1", "m", true⟩, ⟨2, "A", "h2", "m", true⟩]
      = .error (Audit.violations [⟨1, "A", "h1", "m", true⟩, ⟨2, "A", "h2", "m", true⟩]) :=
  claim_C3.2.2.2.2.1 _ (by decide)

end AuditTheorems

section PurchaseModelTheorems

open PurchaseModel

lemma lookupD_self {α : Type} (d : α) : ∀ l : List (String × α),
    (l.map Prod.fst).Nodup → ∀ p ∈ l, lookupD l p.1 d = p.2 := by
  intro l
  induction l with
  | nil => intro _ p hp; simp at hp
  | cons a t ih =>
    intro hnd p hp
    rw [List.map_cons, List.nodup_cons] at hnd
    rcases List.mem_cons.mp hp with rfl | hp
    · unfold lookupD
      rw [List.find?_cons_of_pos _ (by simp)]
    · have hne : a.1 ≠ p.1 := by
        intro he
        exact hnd.1 (he ▸ List.mem_map.mpr ⟨p, hp, rfl⟩)
      unfold lookupD
      rw [List.find?_cons_of_neg _ (by simp [hne])]
      exact ih hnd.2 p hp

lemma basketTerm_eq_spec (channel_pref basket_map : List (String × ℝ))
    (hnd : (basket_map.map Prod.fst).Nodup) :
    basketTerm channel_pref basket_map = spec_basketTerm channel_pref basket_map := by
  unfold basketTerm spec_basketTerm
  refine congrArg List.sum (List.map_congr_left ?_)
  intro p hp
  rw [lookupD_self 1 basket_map hnd p hp]

lemma adSum_eq (delta_ad_map : List (String × ℝ)) : ∀ ad_dict : List (String × ℝ),
    (∀ p ∈ ad_dict, p.2 = 0 ∨ p.2 = 1) →
    (ad_dict.map (fun p => lookupD delta_ad_map p.1 0 * p.2)).sum
      = (ad_dict.map (fun p => if p.2 = 1 then lookupD delta_ad_map p.1 0 else 0)).sum := by
  intro ad_dict
  induction ad_dict with
  | nil => intro _; simp
  | cons a t ih =>
    intro h
    simp only [List.map_cons, List.sum_cons]
    rw [ih (fun p hp => h p (List.mem_cons_of_mem _ hp))]
    rcases h a (List.mem_cons_self _ _) with h0 | h1
    · rw [h0]; norm_num
    · rw [h1]; norm_num

/-- Claim C1 (amended): `persona_month_mu` returns `p * f * b` where the
probability and frequency terms follow the claimed log-linear formulas with
the code's `1e-12` stabilizer inside `ln(season + 1e-12)`, advertising
indicators are 0/1, and the basket sum ranges over the channels of the
basket-size map (dict keys are distinct). -/
theorem claim_C1_amended (pi0 fi0 season promo : ℝ) (ad_dict : List (String × ℝ))
    (price ref_price beta_season gamma : ℝ) (delta_ad_map : List (String × ℝ))
    (eta theta_season lam phi : ℝ) (z_vec w_vec u_vec : List ℝ)
    (channel_pref basket_map : List (String × ℝ))
    (had : ∀ p ∈ ad_dict, p.2 = 0 ∨ p.2 = 1)
    (hnd : (basket_map.map Prod.fst).Nodup) :
    persona_month_mu pi0 fi0 season promo ad_dict price ref_price beta_season gamma
        delta_ad_map eta theta_season lam phi z_vec w_vec u_vec channel_pref basket_map
      = spec_mu_amended pi0 fi0 season promo ad_dict price ref_price beta_season gamma
        delta_ad_map eta theta_season lam phi z_vec w_vec u_vec channel_pref basket_map := by
  unfold persona_month_mu spec_mu_amended
  rw [basketTerm_eq_spec _ _ hnd]
  have hx : logOddsX pi0 season promo price ref_price beta_season gamma eta
      delta_ad_map ad_dict w_vec z_vec
      = spec_logOddsX_amended pi0 season promo price ref_price beta_season gamma eta
      delta_ad_map ad_dict w_vec z_vec := by
    unfold logOddsX spec_logOddsX_amended
    rw [adSum_eq _ _ had]
  have hf : lnF fi0 season promo price ref_price theta_season lam phi u_vec z_vec
      = spec_lnF_amended fi0 season promo price ref_price theta_season lam phi u_vec z_vec := rfl
  rw [hx, hf]

/-- Witness for the amended C1 at a concrete persona-month. -/
theorem claim_C1_amended_witness :
    persona_month_mu (1/2) 1 1 0 [("ModelA", 1)] 1 1 1 0 [("ModelA", (3:ℝ)/10)] 0 0 0 0
        [] [] [] [("대형마트", 1)] [("대형마트", 1.1), ("편의점", 1.0), ("온라인", 1.3)]
      = spec_mu_amended (1/2) 1 1 0 [("ModelA", 1)] 1 1 1 0 [("ModelA", (3:ℝ)/10)] 0 0 0 0
        [] [] [] [("대형마트", 1)] [("대형마트", 1.1), ("편의점", 1.0), ("온라인", 1.3)] :=
  claim_C1_amended (1/2) 1 1 0 [("ModelA", 1)] 1 1 1 0 [("ModelA", (3:ℝ)/10)] 0 0 0 0
    [] [] [] [("대형마트", 1)] [("대형마트", 1.1), ("편의점", 1.0), ("온라인", 1.3)]
    (by intro p hp; rcases List.mem_singleton.mp hp with rfl; right; rfl) (by simp)

lemma logit_half : logit (1/2 : ℝ) = 0 := by
  unfold logit
  rw [show ((1:ℝ)/2 + 1 / 10 ^ 12) / (1 - 1/2 + 1 / 10 ^ 12) = 1 by norm_num, Real.log_one]

lemma inv_logit_eq_half_iff (x : ℝ) : inv_logit x = 1/2 ↔ x = 0 := by
  unfold inv_logit
  constructor
  · intro h
    have hpos : 0 < 1 + Real.exp (-x) := by positivity
    rw [div_eq_div_iff (ne_of_gt hpos) (by norm_num : (2:ℝ) ≠ 0)] at h
    have hexp : Real.exp (-x) = 1 := by linarith
    have hx0 := (Real.exp_eq_one_iff _).mp hexp
    linarith
  · intro h
    rw [h]
    simp [Real.exp_zero]
    norm_num

/-- Counterexample to C1 as stated: at a concrete persona-month with
`season = 1` and `beta_season = 1`, the code's log-odds pick up
`ln(1 + 1e-12) ≠ 0` from the stabilized seasonality term while the claimed
formula adds `beta_season·ln(season) = ln 1 = 0`, so the returned `μ`
differs from the claimed `p·f·b`. -/
theorem claim_C1_counterexample :
    persona_month_mu (1/2) 1 1 0 [] 1 1 1 0 [] 0 0 0 0 [] [] []
        [("대형마트", 1)] [("대형마트", 1.1), ("편의점", 1.0), ("온라인", 1.3)]
      ≠ spec_mu (1/2) 1 1 0 [] 1 1 1 0 [] 0 0 0 0 [] [] []
        [("대형마트", 1)] [("대형마트", 1.1), ("편의점", 1.0), ("온라인", 1.3)] := by
  have hx : logOddsX (1/2) 1 0 1 1 1 0 0 [] [] [] [] = Real.log (1 + 1 / 10 ^ 12) := by
    unfold logOddsX dot
    rw [logit_half]
    simp
  have hxs : spec_logOddsX (1/2) 1 0 1 1 1 0 0 [] [] [] [] = 0 := by
    unfold spec_logOddsX dot
    rw [logit_half]
    simp [Real.log_one]
  have hmax : max (1:ℝ) (1 / 10 ^ 6) = 1 := by norm_num
  have hf : lnF 1 1 0 1 1 0 0 0 [] [] = 0 := by
    unfold lnF dot
    rw [hmax, Real.log_one]
    simp
  have hfs : spec_lnF 1 1 0 1 1 0 0 0 [] [] = 0 := by
    unfold spec_lnF dot
    rw [hmax, Real.log_one]
    simp
  have hb : basketTerm [("대형마트", (1:ℝ))]
      [("대형마트", 1.1), ("편의점", 1.0), ("온라인", 1.3)] = 1.1 := by
    unfold basketTerm lookupD
    simp [List.find?]
  have hbs : spec_basketTerm [("대형마트", (1:ℝ))]
      [("대형마트", 1.1), ("편의점", 1.0), ("온라인", 1.3)] = 1.1 := by
    unfold spec_basketTerm lookupD
    simp [List.find?]
  unfold persona_month_mu spec_mu
  rw [hx, hxs, hf, hfs, hb, hbs, Real.exp_zero]
  intro heq
  have h11 : (1.1 : ℝ) ≠ 0 := by norm_num
  have heq2 : inv_logit (Real.log (1 + 1 / 10 ^ 12)) = inv_logit 0 := by
    have hc := mul_right_cancel₀ h11 heq
    simpa using hc
  have hzero : inv_logit (0:ℝ) = 1/2 := (inv_logit_eq_half_iff 0).mpr rfl
  rw [hzero] at heq2
  have hlog0 : Real.log (1 + 1 / 10 ^ 12) = 0 := (inv_logit_eq_half_iff _).mp heq2
  rcases Real.log_eq_zero.mp hlog0 with h | h | h <;> norm_num at h

/-- Claim C6: holding every other input fixed, a larger price-sensitivity
`eta` strictly decreases the probability term's log-odds when
`price > ref_price`, strictly increases it when `price < ref_price`, and
leaves it unchanged when `price = ref_price` (reference price positive). -/
theorem claim_C6 (pi0 season promo price ref_price beta_season gamma : ℝ)
    (delta_ad_map ad_dict : List (String × ℝ)) (w_vec z_vec : List ℝ)
    (eta1 eta2 : ℝ) (href : 0 < ref_price) (heta : eta1 < eta2) :
    (ref_price < price →
      logOddsX pi0 season promo price ref_price beta_season gamma eta2
          delta_ad_map ad_dict w_vec z_vec
        < logOddsX pi0 season promo price ref_price beta_season gamma eta1
          delta_ad_map ad_dict w_vec z_vec)
    ∧ (price < ref_price →
      logOddsX pi0 season promo price ref_price beta_season gamma eta1
          delta_ad_map ad_dict w_vec z_vec
        < logOddsX pi0 season promo price ref_price beta_season gamma eta2
          delta_ad_map ad_dict w_vec z_vec)
    ∧ (price = ref_price →
      logOddsX pi0 season promo price ref_price beta_season gamma eta1
          delta_ad_map ad_dict w_vec z_vec
        = logOddsX pi0 season promo price ref_price beta_season gamma eta2
          delta_ad_map ad_dict w_vec z_vec) := by
  unfold logOddsX
  refine ⟨?_, ?_, ?_⟩
  · intro hp
    have ht : 0 < price / ref_price - 1 := by
      have h1 : 1 < price / ref_price := (one_lt_div href).mpr hp
      linarith
    have hm := mul_lt_mul_of_pos_right heta ht
    linarith
  · intro hp
    have ht : price / ref_price - 1 < 0 := by
      have h1 : price / ref_price < 1 := (div_lt_one href).mpr hp
      linarith
    have hm := mul_lt_mul_of_neg_right heta ht
    linarith
  · intro hp
    subst hp
    rw [div_self (ne_of_gt href)]
    norm_num

/-- Witness for C6: `price = 2 > ref_price = 1`, `eta` raised from 1 to 2. -/
theorem claim_C6_witness :
    logOddsX 0 1 0 2 1 0 0 2 [] [] [] [] < logOddsX 0 1 0 2 1 0 0 1 [] [] [] [] :=
  (claim_C6 0 1 0 2 1 0 0 [] [] [] [] 1 2 (by norm_num) (by norm_num)).1 (by norm_num)

end PurchaseModelTheorems

section SimV4Theorems

lemma dictGet?_cons {α : Type} (a : String × α) (t : List (String × α)) (k : String) :
    dictGet? (a :: t) k = if a.1 = k then some a.2 else dictGet? t k := by
  unfold dictGet?
  by_cases h : a.1 = k
  · rw [List.find?_cons_of_pos _ (by simp [h]), if_pos h]
    rfl
  · rw [List.find?_cons_of_neg _ (by simp [h]), if_neg h]

lemma dictGet?_nil {α : Type} (k : String) : dictGet? ([] : List (String × α)) k = none := rfl

/-- Counterexample to C7 as stated: for a (degenerate) product whose
category level-2 is the literal string "default" and level-1 is "커피", the
code finds the sentinel key `'default'` in its table and yields 5.0, while
the claimed level-2-then-level-1-then-5.0 cascade over the five named
categories yields the coffee TAM 20.8. -/
theorem claim_C7_counterexample :
    SimV4.productTam "default" "커피" ≠ SimV4.spec_productTam "default" "커피" := by
  have h1 : SimV4.productTam "default" "커피" = 5 := rfl
  have h2 : SimV4.spec_productTam "default" "커피" = 104 / 5 := rfl
  rw [h1, h2]
  norm_num

/-- Claim C7 (amended): monthly sales are the trial's total simulated
purchase units times the per-persona market-segment size
`(TAM in millions × 1,000,000) / persona count`, with the TAM looked up
first by category level-2 and then level-1 in the fixed table
(커피 20.8, 발효유 0.55, 참치캔 10.4, 조미료 3.4, 축산캔 10.4) and
defaulting to 5.0 — where the code's table also maps the literal key
`'default'` to 5.0, so a category string equal to `"default"` matches it
directly. -/
theorem claim_C7_amended :
    (∀ cat2 cat1, cat2 ≠ "default" →
      SimV4.productTam cat2 cat1 = SimV4.spec_productTam cat2 cat1)
    ∧ (∀ total tam n, SimV4.total_monthly_sales total tam n
        = SimV4.pyRound (total * (tam * 1000000 / n)))
    ∧ (∀ cat1, SimV4.productTam "커피" cat1 = 104 / 5)
    ∧ (∀ cat1, SimV4.productTam "발효유" cat1 = 11 / 20)
    ∧ (∀ cat1, SimV4.productTam "참치캔" cat1 = 52 / 5)
    ∧ (∀ cat1, SimV4.productTam "조미료" cat1 = 17 / 5)
    ∧ (∀ cat1, SimV4.productTam "축산캔" cat1 = 52 / 5) := by
  refine ⟨?_, fun total tam n => rfl, fun c => rfl, fun c => rfl, fun c => rfl,
    fun c => rfl, fun c => rfl⟩
  intro cat2 cat1 h
  simp only [SimV4.productTam, SimV4.spec_productTam, SimV4.tam_by_category,
    SimV4.spec_tamTable, dictGet?_cons, dictGet?_nil]
  split_ifs <;> first | rfl | simp_all

/-- Witness for the amended C7 at the coffee category. -/
theorem claim_C7_amended_witness :
    SimV4.productTam "커피" "참치" = SimV4.spec_productTam "커피" "참치" :=
  claim_C7_amended.1 "커피" "참치" (by decide)

lemma rangeFold_length : ∀ (n s : Nat) (arr : List ℚ),
    ((List.range' s n).foldl (fun b m => b.set (SimV4.simMonthIdx m) (6 / 5)) arr).length
      = arr.length := by
  intro n
  induction n with
  | zero => intro s arr; simp
  | succ n ih =>
    intro s arr
    rw [List.range'_succ, List.foldl_cons, ih]
    simp

lemma simMonthIdx_lt (m : Nat) : SimV4.simMonthIdx m < 12 := by
  unfold SimV4.simMonthIdx
  omega

lemma rangeFold_getElem? : ∀ (n s : Nat) (arr : List ℚ), arr.length = 12 → ∀ i, i < 12 →
    ((List.range' s n).foldl (fun b m => b.set (SimV4.simMonthIdx m) (6 / 5)) arr)[i]?
      = if ∃ m ∈ List.range' s n, SimV4.simMonthIdx m = i then some (6 / 5) else arr[i]? := by
  intro n
  induction n with
  | zero => intro s arr hlen i hi; simp
  | succ n ih =>
    intro s arr hlen i hi
    rw [List.range'_succ, List.foldl_cons]
    rw [ih (s + 1) (arr.set (SimV4.simMonthIdx s) (6 / 5)) (by simp [hlen]) i hi]
    by_cases hc : ∃ m ∈ List.range' (s + 1) n, SimV4.simMonthIdx m = i
    · rw [if_pos hc]
      obtain ⟨m, hm, hmi⟩ := hc
      rw [if_pos ⟨m, List.mem_cons_of_mem _ hm, hmi⟩]
    · rw [if_neg hc]
      by_cases hs : SimV4.simMonthIdx s = i
      · rw [List.getElem?_set, if_pos hs, if_pos (by rw [hlen]; exact hs ▸ hi)]
        rw [if_pos ⟨s, List.mem_cons_self _ _, hs⟩]
      · rw [List.getElem?_set_ne hs]
        rw [if_neg ?_]
        rintro ⟨m, hm, hmi⟩
        rcases List.mem_cons.mp hm with rfl | hm
        · exact hs hmi
        · exact hc ⟨m, hm, hmi⟩

lemma covers_cons (w : Nat × Nat) (t : List (Nat × Nat)) (i : Nat) :
    SimV4.covers (w :: t) i
      ↔ (∃ m ∈ List.range' w.1 (w.2 + 1 - w.1), SimV4.simMonthIdx m = i)
        ∨ SimV4.covers t i := by
  unfold SimV4.covers
  constructor
  · rintro ⟨v, hv, hm⟩
    rcases List.mem_cons.mp hv with rfl | hv
    · exact Or.inl hm
    · exact Or.inr ⟨v, hv, hm⟩
  · rintro (hm | ⟨v, hv, hm⟩)
    · exact ⟨w, List.mem_cons_self _ _, hm⟩
    · exact ⟨v, List.mem_cons_of_mem _ hv, hm⟩

lemma boostFold_getElem? : ∀ (ws : List (Nat × Nat)) (arr : List ℚ),
    arr.length = 12 → ∀ i, i < 12 →
    (SimV4.boostFold arr ws)[i]?
      = if SimV4.covers ws i then some (6 / 5) else arr[i]? := by
  intro ws
  induction ws with
  | nil =>
    intro arr hlen i hi
    rw [if_neg (by rintro ⟨w, hw, -⟩; simp at hw)]
    rfl
  | cons w t ih =>
    intro arr hlen i hi
    have hstep : SimV4.boostFold arr (w :: t)
        = SimV4.boostFold
          ((List.range' w.1 (w.2 + 1 - w.1)).foldl
            (fun b m => b.set (SimV4.simMonthIdx m) (6 / 5)) arr) t := rfl
    rw [hstep, ih _ (by rw [rangeFold_length]; exact hlen) i hi]
    by_cases hc : SimV4.covers t i
    · rw [if_pos hc, if_pos ((covers_cons w t i).mpr (Or.inr hc))]
    · rw [if_neg hc, rangeFold_getElem? _ _ _ hlen i hi]
      by_cases hw : ∃ m ∈ List.range' w.1 (w.2 + 1 - w.1), SimV4.simMonthIdx m = i
      · rw [if_pos hw, if_pos ((covers_cons w t i).mpr (Or.inl hw))]
      · rw [if_neg hw, if_neg ?_]
        intro hcov
        rcases (covers_cons w t i).mp hcov with h | h
        · exact hw h
        · exact hc h

/-- Claim C8: the v4 simulator parses every occurrence of the literal
pattern `<start>-<end>월` out of the product feature string and sets
`marketing_boost_index` to 1.2 exactly at the forecast-month indices
`(month - 7 + 12) % 12` of the covered calendar months, leaving 1.0
elsewhere; in particular `"6-7월 광고"` boosts exactly indices 11 and 0. -/
theorem claim_C8 :
    (∀ features i, i < 12 →
      (SimV4.marketing_boost_index features)[i]?
        = some (if SimV4.covers (SimV4.findWindows features) i then 6 / 5 else 1))
    ∧ SimV4.marketing_boost_index ("6-7월 광고".toList)
        = [6 / 5, 1, 1, 1, 1, 1, 1, 1, 1, 1, 1, 6 / 5] := by
  constructor
  · intro features i hi
    unfold SimV4.marketing_boost_index
    rw [boostFold_getElem? _ _ (by simp) i hi]
    by_cases hc : SimV4.covers (SimV4.findWindows features) i
    · rw [if_pos hc, if_pos hc]
    · rw [if_neg hc, if_neg hc, List.getElem?_replicate, if_pos hi]
  · rfl

/-- Witness for C8 at feature string `"6-7월 광고"`, index 11. -/
theorem claim_C8_witness :
    (SimV4.marketing_boost_index ("6-7월 광고".toList))[11]?
      = some (if SimV4.covers (SimV4.findWindows ("6-7월 광고".toList)) 11
          then 6 / 5 else 1) :=
  claim_C8.1 ("6-7월 광고".toList) 11 (by norm_num)

end SimV4Theorems

section AttrDefaultTheorems

/-- Claim C10: the per-attribute defaults (제품 적합도 5.0, 가격 민감도 5.0,
마케팅 영향력 5.0, 계절성 구매 성향 5.0, 평균 구매 수량 1) are used only when
no loaded persona carries the attribute; when at least one persona carries
it, a persona lacking it — or holding a non-coercible value — gets 0.0. -/
theorem claim_C10 :
    (∀ (ps : List SimV4.PersonaV4) (name : String) (d : ℚ),
      SimV4.hasAttr ps name = false →
      SimV4.attrColumn ps name (List.replicate ps.length d) = List.replicate ps.length d)
    ∧ (∀ (ps : List SimV4.PersonaV4) (name : String) (dflt : List ℚ)
        (i : Nat) (p : SimV4.PersonaV4),
      SimV4.hasAttr ps name = true → ps[i]? = some p →
      (SimV4.attrLookup p name = none ∨ SimV4.attrLookup p name = some .nonNum) →
      (SimV4.attrColumn ps name dflt)[i]? = some 0)
    ∧ (∀ ps, SimV4.baseFitColumn ps
        = SimV4.attrColumn ps "제품 적합도" (List.replicate ps.length 5))
    ∧ (∀ ps, SimV4.priceSensColumn ps
        = SimV4.attrColumn ps "가격 민감도" (List.replicate ps.length 5))
    ∧ (∀ ps, SimV4.marketingInflColumn ps
        = SimV4.attrColumn ps "마케팅 영향력" (List.replicate ps.length 5))
    ∧ (∀ ps, SimV4.seasonalPrefColumn ps
        = SimV4.attrColumn ps "계절성 구매 성향" (List.replicate ps.length 5))
    ∧ (∀ ps, SimV4.avgQtyColumn ps
        = SimV4.attrColumn ps "평균 구매 수량" (List.replicate ps.length 1)) := by
  refine ⟨?_, ?_, fun ps => rfl, fun ps => rfl, fun ps => rfl, fun ps => rfl, fun ps => rfl⟩
  · intro ps name d h
    simp [SimV4.attrColumn, h]
  · intro ps name dflt i p hh hpi hmiss
    simp only [SimV4.attrColumn, hh, if_true]
    rw [List.getElem?_map, hpi, Option.map_some']
    rcases hmiss with h | h <;> rw [h] <;> rfl

/-- Witness for C10: two personas, one carrying 제품 적합도 and one lacking
it; the lacking persona's column entry is 0, not the default 5. -/
theorem claim_C10_witness :
    (SimV4.attrColumn [⟨[("제품 적합도", .fl 7)]⟩, ⟨[]⟩] "제품 적합도"
        (List.replicate 2 5))[1]? = some 0 :=
  claim_C10.2.1 [⟨[("제품 적합도", .fl 7)]⟩, ⟨[]⟩] "제품 적합도"
    (List.replicate 2 5) 1 ⟨[]⟩ rfl rfl (Or.inl rfl)

end AttrDefaultTheorems

section RngTheorems

/-- Counterexample to C4 as stated: the standalone v4 simulator's Bernoulli
sampling site draws from the ambient global numpy RNG (`np.random.binomial`
with no seed anywhere in simulator.py), so two runs with identical declared
inputs but different ambient RNG states produce different outputs — the
per-site determinism assertion fails for the standalone scripts. -/
theorem claim_C4_counterexample :
    (SimV4.simulate_monthly_demand_probabilistic
        [⟨[("제품 적합도", .fl 5), ("평균 구매 수량", .fl 2)]⟩] [] ⟨1, 1, 1⟩
        ⟨none, none, none⟩ ([1/4] : GlobalRng)).1
      ≠ (SimV4.simulate_monthly_demand_probabilistic
        [⟨[("제품 적합도", .fl 5), ("평균 구매 수량", .fl 2)]⟩] [] ⟨1, 1, 1⟩
        ⟨none, none, none⟩ ([3/4] : GlobalRng)).1 := by
  have h1 : (SimV4.simulate_monthly_demand_probabilistic
      [⟨[("제품 적합도", .fl 5), ("평균 구매 수량", .fl 2)]⟩] [] ⟨1, 1, 1⟩
      ⟨none, none, none⟩ ([1/4] : GlobalRng)).1 = [2] := by
    simp [SimV4.simulate_monthly_demand_probabilistic, SimV4.baseFitColumn,
      SimV4.priceSensColumn, SimV4.marketingInflColumn, SimV4.seasonalPrefColumn,
      SimV4.avgQtyColumn, SimV4.attrColumn, SimV4.hasAttr, SimV4.attrLookup,
      SimV4.safeFloat, SimV4.adEffect, SimV4.clip01, SimV4.bernoulliDraw,
      SimV4.CoeffsV4.gamma, SimV4.CoeffsV4.beta_season, SimV4.CoeffsV4.delta_ad_map,
      List.headD]
    norm_num
  have h2 : (SimV4.simulate_monthly_demand_probabilistic
      [⟨[("제품 적합도", .fl 5), ("평균 구매 수량", .fl 2)]⟩] [] ⟨1, 1, 1⟩
      ⟨none, none, none⟩ ([3/4] : GlobalRng)).1 = [0] := by
    simp [SimV4.simulate_monthly_demand_probabilistic, SimV4.baseFitColumn,
      SimV4.priceSensColumn, SimV4.marketingInflColumn, SimV4.seasonalPrefColumn,
      SimV4.avgQtyColumn, SimV4.attrColumn, SimV4.hasAttr, SimV4.attrLookup,
      SimV4.safeFloat, SimV4.adEffect, SimV4.clip01, SimV4.bernoulliDraw,
      SimV4.CoeffsV4.gamma, SimV4.CoeffsV4.beta_season, SimV4.CoeffsV4.delta_ad_map,
      List.headD]
    norm_num
  rw [h1, h2]
  simp

lemma trialPath_false_foldl {S : Type} (draw : ℝ → ℝ → S → ℝ × S)
    (bag : List Runner.PersonaR) (weights : List ℝ) (coeffs : Runner.CoeffsR)
    (ref_price : ℝ) (basket : List (String × ℝ)) (cal : String → Runner.CalEntry)
    (N k : ℝ) : ∀ (months : List String) (acc : List ℝ) (s : S),
    months.foldl (fun acc m =>
        let mu := Runner.muMonth bag weights coeffs ref_price basket cal N m
        if (false : Bool) then
          let ys := PurchaseModel.sample_negbin draw mu k acc.2
          (acc.1 ++ [ys.1], ys.2)
        else (acc.1 ++ [mu], acc.2)) (acc, s)
      = (acc ++ months.map (Runner.muMonth bag weights coeffs ref_price basket cal N), s) := by
  intro months
  induction months with
  | nil => intro acc s; simp
  | cons m t ih =>
    intro acc s
    rw [List.foldl_cons]
    refine (ih (acc ++ [Runner.muMonth bag weights coeffs ref_price basket cal N m]) s).trans ?_
    simp

lemma trialPath_false {S : Type} (draw : ℝ → ℝ → S → ℝ × S)
    (bag : List Runner.PersonaR) (weights : List ℝ) (coeffs : Runner.CoeffsR)
    (ref_price : ℝ) (basket : List (String × ℝ)) (cal : String → Runner.CalEntry)
    (N k : ℝ) (months : List String) (s : S) :
    Runner.trialPath draw bag weights coeffs ref_price basket cal N k months false s
      = (months.map (Runner.muMonth bag weights coeffs ref_price basket cal N), s) := by
  unfold Runner.trialPath
  simpa using trialPath_false_foldl draw bag weights coeffs ref_price basket cal N k months [] s

lemma runTrials_false {S : Type} (draw : ℝ → ℝ → S → ℝ × S)
    (bag : List Runner.PersonaR) (weights : List ℝ) (coeffs : Runner.CoeffsR)
    (ref_price : ℝ) (basket : List (String × ℝ)) (cal : String → Runner.CalEntry)
    (N k : ℝ) (months : List String) : ∀ (n : Nat) (s : S),
    Runner.runTrials draw bag weights coeffs ref_price basket cal N k months false n s
      = (List.replicate n
          (months.map (Runner.muMonth bag weights coeffs ref_price basket cal N)), s) := by
  intro n
  induction n with
  | zero => intro s; rfl
  | succ n ih =>
    intro s
    simp only [Runner.runTrials]
    rw [trialPath_false, ih]
    simp [List.replicate_succ]

/-- Claim C4 (amended): `simulate_product` draws all its randomness from the
one RNG created from the explicit seed — its forecast output is invariant
under the ambient global RNG state (which it returns untouched), so two
invocations with identical inputs and seed produce identical
mean/median/p05/p95 sequences; and with `stochastic = false` the output does
not depend on the sampler or seed at all. -/
theorem claim_C4_amended :
    (∀ (S : Type) (draw : ℝ → ℝ → S → ℝ × S) (init : Nat → S)
        (bag : List Runner.PersonaR) (ref_price : ℝ)
        (basket : Option (List (String × ℝ))) (cal : String → Runner.CalEntry)
        (coeffs : Runner.CoeffsR) (weights : List ℝ) (N k : ℝ)
        (months : List String) (nTrials : Nat) (stochastic : Bool) (seed : Nat)
        (amb1 amb2 : GlobalRng),
      (Runner.simulate_product draw init bag ref_price basket cal coeffs weights N k
          months nTrials stochastic seed amb1).1
        = (Runner.simulate_product draw init bag ref_price basket cal coeffs weights N k
          months nTrials stochastic seed amb2).1
      ∧ (Runner.simulate_product draw init bag ref_price basket cal coeffs weights N k
          months nTrials stochastic seed amb1).2 = amb1)
    ∧ (∀ (S1 S2 : Type) (draw1 : ℝ → ℝ → S1 → ℝ × S1) (draw2 : ℝ → ℝ → S2 → ℝ × S2)
        (init1 : Nat → S1) (init2 : Nat → S2) (bag : List Runner.PersonaR)
        (ref_price : ℝ) (basket : Option (List (String × ℝ)))
        (cal : String → Runner.CalEntry) (coeffs : Runner.CoeffsR) (weights : List ℝ)
        (N k : ℝ) (months : List String) (nTrials : Nat) (seed1 seed2 : Nat)
        (amb : GlobalRng),
      (Runner.simulate_product draw1 init1 bag ref_price basket cal coeffs weights N k
          months nTrials false seed1 amb).1
        = (Runner.simulate_product draw2 init2 bag ref_price basket cal coeffs weights N k
          months nTrials false seed2 amb).1) := by
  constructor
  · intro S draw init bag ref_price basket cal coeffs weights N k months nTrials
      stochastic seed amb1 amb2
    exact ⟨rfl, rfl⟩
  · intro S1 S2 draw1 draw2 init1 init2 bag ref_price basket cal coeffs weights N k
      months nTrials seed1 seed2 amb
    simp only [Runner.simulate_product]
    rw [runTrials_false, runTrials_false]

end RngTheorems

section LLMTheorems

lemma scanExactly_cons (c : Char) (cs : List Char) :
    LLM.scanExactly (c :: cs) = match LLM.tryExactly (c :: cs) with
      | some k => some k
      | none => LLM.scanExactly cs := rfl

lemma scanId_cons (c : Char) (cs : List Char) :
    LLM.scanId (c :: cs) = match LLM.tryId (c :: cs) with
      | some g => some g
      | none => LLM.scanId cs := rfl

lemma tryExactly_cons_ne {c : Char} (h : c ≠ 'E') (t : List Char) :
    LLM.tryExactly (c :: t) = none := by
  unfold LLM.tryExactly
  rw [if_neg]
  intro he
  rw [show (c :: t).take 8 = c :: t.take 7 from rfl,
    show "EXACTLY ".toList = 'E' :: "XACTLY ".toList from rfl] at he
  exact h (List.head_eq_of_cons_eq he)

lemma tryId_cons_ne {c : Char} (h : c ≠ '-') (t : List Char) :
    LLM.tryId (c :: t) = none := by
  unfold LLM.tryId
  rw [if_neg]
  intro he
  rw [show (c :: t).take 6 = c :: t.take 5 from rfl,
    show "- id: ".toList = '-' :: " id: ".toList from rfl] at he
  exact h (List.head_eq_of_cons_eq he)

lemma tryId_hyphen {c2 : Char} (h : c2 ≠ ' ') (t : List Char) :
    LLM.tryId ('-' :: c2 :: t) = none := by
  unfold LLM.tryId
  rw [if_neg]
  intro he
  rw [show ('-' :: c2 :: t).take 6 = '-' :: c2 :: t.take 4 from rfl,
    show "- id: ".toList = '-' :: ' ' :: "id: ".toList from rfl] at he
  exact h (List.head_eq_of_cons_eq (List.tail_eq_of_cons_eq he))

lemma scanExactly_append : ∀ {l : List Char}, (∀ c ∈ l, c ≠ 'E') → ∀ r : List Char,
    LLM.scanExactly (l ++ r) = LLM.scanExactly r := by
  intro l
  induction l with
  | nil => intro _ r; rfl
  | cons c t ih =>
    intro h r
    rw [List.cons_append, scanExactly_cons,
      tryExactly_cons_ne (h c (List.mem_cons_self _ _))]
    exact ih (fun x hx => h x (List.mem_cons_of_mem _ hx)) r

lemma scanId_append : ∀ {l : List Char}, (∀ c ∈ l, c ≠ '-') → ∀ r : List Char,
    LLM.scanId (l ++ r) = LLM.scanId r := by
  intro l
  induction l with
  | nil => intro _ r; rfl
  | cons c t ih =>
    intro h r
    rw [List.cons_append, scanId_cons, tryId_cons_ne (h c (List.mem_cons_self _ _))]
    exact ih (fun x hx => h x (List.mem_cons_of_mem _ hx)) r

lemma scanExactly_of_try_some {l : List Char} {k : Nat} (hne : l ≠ [])
    (h : LLM.tryExactly l = some k) : LLM.scanExactly l = some k := by
  cases l with
  | nil => exact absurd rfl hne
  | cons c cs => rw [scanExactly_cons, h]

lemma scanId_of_try_some {l g : List Char} (hne : l ≠ [])
    (h : LLM.tryId l = some g) : LLM.scanId l = some g := by
  cases l with
  | nil => exact absurd rfl hne
  | cons c cs => rw [scanId_cons, h]

lemma digitCh_isDigit (n : Nat) : (LLM.digitCh n).isDigit = true := by
  rcases n with _ | _ | _ | _ | _ | _ | _ | _ | _ | n <;> rfl

lemma natCharsAux_digits : ∀ fuel n : Nat, ∀ c ∈ LLM.natCharsAux fuel n, c.isDigit = true := by
  intro fuel
  induction fuel with
  | zero =>
    intro n c hc
    rw [LLM.natCharsAux, List.mem_singleton] at hc
    exact hc ▸ digitCh_isDigit n
  | succ fuel ih =>
    intro n c hc
    rw [LLM.natCharsAux] at hc
    split at hc
    · rw [List.mem_singleton] at hc
      exact hc ▸ digitCh_isDigit n
    · rw [List.mem_append] at hc
      rcases hc with hc | hc
      · exact ih (n / 10) c hc
      · rw [List.mem_singleton] at hc
        exact hc ▸ digitCh_isDigit (n % 10)

lemma natChars_digits (n : Nat) : ∀ c ∈ LLM.natChars n, c.isDigit = true :=
  natCharsAux_digits n n

lemma natChars_ne_nil (n : Nat) : LLM.natChars n ≠ [] := by
  unfold LLM.natChars LLM.natCharsAux
  cases n <;> simp <;> split <;> simp

lemma isDigit_ne_E {c : Char} (h : c.isDigit = true) : c ≠ 'E' := by
  rintro rfl
  exact absurd h (by decide)

lemma isDigit_ne_hyphen {c : Char} (h : c.isDigit = true) : c ≠ '-' := by
  rintro rfl
  exact absurd h (by decide)

lemma takeWhile_append_of_all {P : Char → Bool} : ∀ l : List Char,
    (∀ c ∈ l, P c = true) → ∀ r : List Char,
    (l ++ r).takeWhile P = l ++ r.takeWhile P := by
  intro l
  induction l with
  | nil => intro _ r; rfl
  | cons c t ih =>
    intro h r
    rw [List.cons_append, List.takeWhile_cons_of_pos (h c (List.mem_cons_self _ _)),
      ih (fun x hx => h x (List.mem_cons_of_mem _ hx)) r]
    rfl

lemma scanExactly_prompt (K : Nat) (rest : List Char) :
    LLM.scanExactly
        ("[System] You are a market-research generator. Output STRICT JSON only.\n[User]\nGenerate EXACTLY ".toList
          ++ (LLM.natChars K ++ (' ' :: rest)))
      = some (SimV4.digitsToNat (LLM.natChars K)) := by
  rw [show "[System] You are a market-research generator. Output STRICT JSON only.\n[User]\nGenerate EXACTLY ".toList
      = "[System] You are a market".toList
        ++ ('-' :: ("research generator. Output STRICT JSON only.\n[User]\nGenerate ".toList
          ++ "EXACTLY ".toList)) from rfl]
  rw [List.append_assoc, List.cons_append]
  rw [scanExactly_append (by decide)]
  rw [scanExactly_cons, tryExactly_cons_ne (by decide)]
  rw [List.append_assoc]
  rw [scanExactly_append (by decide)]
  apply scanExactly_of_try_some (by simp)
  unfold LLM.tryExactly
  rw [show ("EXACTLY ".toList ++ (LLM.natChars K ++ (' ' :: rest))).take 8
      = "EXACTLY ".toList from by
    rw [show (8 : Nat) = ("EXACTLY ".toList).length from rfl, List.take_left]]
  rw [if_pos rfl]
  rw [show ("EXACTLY ".toList ++ (LLM.natChars K ++ (' ' :: rest))).drop 8
      = LLM.natChars K ++ (' ' :: rest) from by
    rw [show (8 : Nat) = ("EXACTLY ".toList).length from rfl, List.drop_left]]
  rw [takeWhile_append_of_all (P := SimV4.isDigitCh) (LLM.natChars K)
    (fun c hc => natChars_digits K c hc) (' ' :: rest)]
  rw [List.takeWhile_cons_of_neg (by decide), List.append_nil]
  rw [if_neg (natChars_ne_nil K)]

lemma scanId_prompt (K : Nat) (id rest : List Char) (hne : id ≠ [])
    (hhd : id.head? ≠ some '\n') :
    ∃ g, LLM.scanId
        ("[System] You are a market-research generator. Output STRICT JSON only.\n[User]\nGenerate EXACTLY ".toList
          ++ (LLM.natChars K
            ++ (" consumer personas for ONE product in a SINGLE response.\nProduct:\n- id: ".toList
              ++ (id ++ ('\n' :: rest)))))
      = some g := by
  rw [show "[System] You are a market-research generator. Output STRICT JSON only.\n[User]\nGenerate EXACTLY ".toList
      = "[System] You are a market".toList
        ++ ('-' :: ('r' :: "esearch generator. Output STRICT JSON only.\n[User]\nGenerate EXACTLY ".toList)) from rfl]
  rw [List.append_assoc, List.cons_append, List.cons_append]
  rw [scanId_append (by decide)]
  rw [scanId_cons, tryId_hyphen (by decide)]
  rw [show ('r' :: ("esearch generator. Output STRICT JSON only.\n[User]\nGenerate EXACTLY ".toList
      ++ (LLM.natChars K
        ++ (" consumer personas for ONE product in a SINGLE response.\nProduct:\n- id: ".toList
          ++ (id ++ ('\n' :: rest))))))
      = "research generator. Output STRICT JSON only.\n[User]\nGenerate EXACTLY ".toList
        ++ (LLM.natChars K
          ++ (" consumer personas for ONE product in a SINGLE response.\nProduct:\n- id: ".toList
            ++ (id ++ ('\n' :: rest)))) from rfl]
  rw [scanId_append (by decide)]
  rw [scanId_append (fun c hc => isDigit_ne_hyphen (natChars_digits K c hc))]
  rw [show " consumer personas for ONE product in a SINGLE response.\nProduct:\n- id: ".toList
      = " consumer personas for ONE product in a SINGLE response.\nProduct:\n".toList
        ++ "- id: ".toList from rfl]
  rw [List.append_assoc]
  rw [scanId_append (by decide)]
  obtain ⟨c, id', rfl⟩ : ∃ c id', id = c :: id' := by
    cases id with
    | nil => exact absurd rfl hne
    | cons c id' => exact ⟨c, id', rfl⟩
  have hc : c ≠ '\n' := by
    intro hcn
    exact hhd (by rw [hcn]; rfl)
  refine ⟨(("- id: ".toList ++ (c :: id' ++ ('\n' :: rest))).drop 6).takeWhile
    (fun x => x != '\n'), ?_⟩
  apply scanId_of_try_some (by simp)
  unfold LLM.tryId
  rw [if_pos (by
    rw [show (6 : Nat) = ("- id: ".toList).length from rfl, List.take_left])]
  rw [if_neg ?_]
  rw [show ("- id: ".toList ++ (c :: id' ++ ('\n' :: rest))).drop 6
      = c :: id' ++ ('\n' :: rest) from by
    rw [show (6 : Nat) = ("- id: ".toList).length from rfl, List.drop_left]]
  rw [List.cons_append, List.takeWhile_cons_of_pos (by simp [hc])]
  simp

/-- Counterexample to C9 as stated: the prompt built by
`build_product_prompt` for a product whose id renders as the empty string
contains no character after `"- id: "` on that line, the `"- id: ([^\n]+)"`
search of `_mock` fails, and `complete_once` raises instead of returning —
so the failure branch is reachable from `build_product_prompt` output. -/
theorem claim_C9_counterexample :
    LLM.complete_once none (LLM.build_product_prompt
        ⟨[], "N".toList, "C".toList, "B".toList, "ch".toList, "ad".toList⟩ 5)
      = .error .attributeError := by decide

/-- Claim C9 (amended): in mock mode `complete_once` returns normally
exactly when the prompt contains both the `"EXACTLY (\d+)"` and
`"- id: ([^\n]+)"` patterns, raising otherwise; and on every prompt produced
by `build_product_prompt` for a product whose rendered id is nonempty and
does not start with a newline, both patterns are present, so the failure
branch is unreachable. -/
theorem claim_C9_amended :
    (∀ (env : Option String) (prompt : List Char), env.getD "1" = "1" →
      ((LLM.complete_once env prompt).isOk = true
        ↔ (LLM.scanExactly prompt).isSome = true ∧ (LLM.scanId prompt).isSome = true))
    ∧ (∀ (env : Option String) (prompt : List Char), env.getD "1" = "1" →
      (LLM.scanExactly prompt = none ∨ LLM.scanId prompt = none) →
      LLM.complete_once env prompt = .error .attributeError)
    ∧ (∀ (meta : LLM.ProductMeta) (K : Nat), meta.id ≠ [] →
      meta.id.head? ≠ some '\n' →
      (LLM.complete_once none (LLM.build_product_prompt meta K)).isOk = true) := by
  refine ⟨?_, ?_, ?_⟩
  · intro env prompt h
    rcases hE : LLM.scanExactly prompt with _ | k <;>
      rcases hI : LLM.scanId prompt with _ | g <;>
        simp [LLM.complete_once, h, hE, hI, Except.isOk, Except.toBool]
  · intro env prompt h hmiss
    rcases hE : LLM.scanExactly prompt with _ | k <;>
      rcases hI : LLM.scanId prompt with _ | g
    · simp [LLM.complete_once, h, hE, hI]
    · simp [LLM.complete_once, h, hE, hI]
    · simp [LLM.complete_once, h, hE, hI]
    · rcases hmiss with hm | hm
      · exact absurd hm (by simp [hE])
      · exact absurd hm (by simp [hI])
  · intro meta K hne hhd
    have hsE : LLM.scanExactly (LLM.build_product_prompt meta K)
        = some (SimV4.digitsToNat (LLM.natChars K)) := by
      unfold LLM.build_product_prompt
      rw [show " consumer personas for ONE product in a SINGLE response.\nProduct:\n- id: ".toList
          = ' ' :: "consumer personas for ONE product in a SINGLE response.\nProduct:\n- id: ".toList
          from rfl]
      simp only [List.append_assoc, List.cons_append]
      exact scanExactly_prompt K _
    have hsI : ∃ g, LLM.scanId (LLM.build_product_prompt meta K) = some g := by
      unfold LLM.build_product_prompt
      rw [show "\n- name: ".toList = '\n' :: "- name: ".toList from rfl]
      simp only [List.append_assoc, List.cons_append]
      exact scanId_prompt K meta.id _ hne hhd
    obtain ⟨g, hg⟩ := hsI
    simp [LLM.complete_once, hsE, hg, Except.isOk, Except.toBool]

/-- Witness for the amended C9 at a product with id `"P1"` and K = 10. -/
theorem claim_C9_witness :
    (LLM.complete_once none (LLM.build_product_prompt
        ⟨"P1".toList, "N".toList, "C".toList, "B".toList, "ch".toList, "ad".toList⟩
        10)).isOk = true :=
  claim_C9_amended.2.2
    ⟨"P1".toList, "N".toList, "C".toList, "B".toList, "ch".toList, "ad".toList⟩
    10 (by decide) (by decide)

end LLMTheorems

end Pertuna
